import Mathlib

/-!
Verification of the vendor comparison and scoring engine of the
Internal Procurement System (`src/project.py`, function `compare_vendors`
together with its collaborator `get_vendor` and the vendor store).

Numbers are modelled exactly as rationals: the Python code computes with
floats over small decimal literals, every constant appearing in the spec
and in the claims is an exact decimal, and no claim hinges on binary
floating-point representation artifacts.  Python's `round(x, 1)`
(banker's rounding to one decimal place) is modelled by `round1` below,
built on round-half-to-even.
-/

namespace Procurement

/-- Round-half-to-even on rationals, the rounding rule of Python's `round`:
non-midpoints go to the nearest integer, exact midpoints to the even
neighbour. -/
def pyRound (x : ℚ) : ℤ :=
  if Int.fract x = 1/2 then (if 2 ∣ ⌊x⌋ then ⌊x⌋ else ⌊x⌋ + 1) else round x

/-- Python's `round(x, 1)`: round to one decimal place. -/
def round1 (x : ℚ) : ℚ := (pyRound (10 * x) : ℚ) / 10

/-- A vendor review.  `review.get('rating', 0)` in the source defaults a
missing `rating` key to 0, so the rating is optional. -/
structure Review where
  rating : Option ℚ
deriving DecidableEq

/-- The rating a review contributes to sums: `review.get('rating', 0)`. -/
def getRating (r : Review) : ℚ := r.rating.getD 0

/-- A vendor record, restricted to the fields the comparison engine reads
(`id` is what `get_vendor` looks up, `name` is what the table and the
recommendation panel display). -/
structure Vendor where
  id : String
  name : String
  price_rating : ℚ
  delivery_time : ℚ
  reviews : List Review
deriving DecidableEq

/-- `sum(review.get('rating', 0) for review in reviews)` (line 264). -/
def ratingSum (rs : List Review) : ℚ := (rs.map getRating).sum

/-- Lines 262-265: `avg_review = 0`, then
`if vendor.reviews: avg_review = total / len(vendor.reviews)`. -/
def avg_review (v : Vendor) : ℚ :=
  if v.reviews.isEmpty then 0 else ratingSum v.reviews / (v.reviews.length : ℚ)

/-- Line 269: `price_factor = vendor.price_rating / 10 * 0.4`. -/
def price_factor (v : Vendor) : ℚ := v.price_rating / 10 * 0.4

/-- Line 270: `delivery_factor = min(vendor.delivery_time, 30) / 30 * 0.4`. -/
def delivery_factor (v : Vendor) : ℚ := min v.delivery_time 30 / 30 * 0.4

/-- Line 271:
`review_factor = (5 - avg_review) / 5 * 0.2 if avg_review > 0 else 0.1`.
The guard is on the computed average being positive, not on the review
list being non-empty. -/
def review_factor (v : Vendor) : ℚ :=
  if 0 < avg_review v then (5 - avg_review v) / 5 * 0.2 else 0.1

/-- Line 273:
`overall_score = 10 - ((price_factor + delivery_factor + review_factor) * 10)`. -/
def overall_score_raw (v : Vendor) : ℚ :=
  10 - ((price_factor v + delivery_factor v + review_factor v) * 10)

/-- Line 274: `overall_score = round(overall_score, 1)`. -/
def overall_score (v : Vendor) : ℚ := round1 (overall_score_raw v)

/-- The review part of the inline selection key (line 290):
`(5 - (sum(...) / len(...) if v.reviews else 0)) / 5 * 0.2 if v.reviews else 0.1`.
Here the guard is emptiness of the review list. -/
def key_review_factor (v : Vendor) : ℚ :=
  if v.reviews.isEmpty then 0.1
  else (5 - ratingSum v.reviews / (v.reviews.length : ℚ)) / 5 * 0.2

/-- The selection key of the `max` call (lines 287-291):
`10 - ((v.price_rating / 10 * 0.4) + (min(v.delivery_time, 30) / 30 * 0.4) + review part)`.
Unlike the table formula of line 273, the factor sum here is not
multiplied by 10, and the result is never rounded. -/
def key_score (v : Vendor) : ℚ :=
  10 - (v.price_rating / 10 * 0.4 + min v.delivery_time 30 / 30 * 0.4 + key_review_factor v)

/-- One row of the comparison table (lines 276-282): vendor name, raw price
rating and delivery time, the average review formatted to one decimal place
(`f"{avg_review:.1f}"`, represented by its rounded value) or `none` for the
`"No reviews"` marker, and the rounded overall score. -/
structure Row where
  name : String
  price_rating : ℚ
  delivery_time : ℚ
  avg_display : Option ℚ
  score : ℚ
deriving DecidableEq

/-- The row the table loop (lines 260-282) emits for one vendor. -/
def mkRow (v : Vendor) : Row :=
  { name := v.name
    price_rating := v.price_rating
    delivery_time := v.delivery_time
    avg_display := if v.reviews.isEmpty then none else some (round1 (avg_review v))
    score := overall_score v }

/-- The rows of the comparison table, one per vendor in input order. -/
def compare_rows (vendors : List Vendor) : List Row := vendors.map mkRow

/-- CPython's `max(..., key=k)`: scan left to right keeping the current
best, replacing it only when a strictly larger key appears, so the first
element attaining the maximum key is the one returned. -/
def pickBest (k : Vendor → ℚ) : Vendor → List Vendor → Vendor
  | b, [] => b
  | b, v :: rest => pickBest k (if k b < k v then v else b) rest

/-- The engine's error taxonomy: `compare_vendors` with no valid vendors
takes the error path (spec name `InsufficientInputError`). -/
inductive CompareError where
  | insufficientInput
deriving DecidableEq

/-- The comparison engine over already-resolved vendor records
(lines 247-294): on empty input the source prints
`"Error: No valid vendors to compare."` and returns without producing a
comparison (modelled as the error value); otherwise it produces the table
rows and the `max`-selected recommendation. -/
def compare_engine : List Vendor → Except CompareError (List Row × Vendor)
  | [] => .error .insufficientInput
  | v :: rest => .ok (compare_rows (v :: rest), pickBest key_score v rest)

/-- `get_vendor` (lines 154-159): scan the stored vendor list for the
first record whose id matches; the store is only read, never written, so
the state component is passed through unchanged. -/
def get_vendor_st (vid : String) (s : List Vendor) : Option Vendor × List Vendor :=
  (s.find? (fun v => v.id == vid), s)

/-- The resolution loop of `compare_vendors` (lines 240-245): look every
requested id up in the store, keep the hits in order, skip (with a printed
warning) the misses, threading the store state through each lookup. -/
def resolve_vendors : List String → List Vendor → List Vendor × List Vendor
  | [], s => ([], s)
  | vid :: rest, s =>
    match get_vendor_st vid s with
    | (some v, s1) =>
      let q := resolve_vendors rest s1
      (v :: q.1, q.2)
    | (none, s1) => resolve_vendors rest s1

/-- `compare_vendors(vendor_ids)` viewed as a state-passing operation on
the vendor store: resolve the ids, run the engine, and return the final
store state (the source contains no `save_data` call, only `get_vendor`
reads). -/
def compare_vendors_op (ids : List String) (s : List Vendor) :
    Except CompareError (List Row × Vendor) × List Vendor :=
  (compare_engine (resolve_vendors ids s).1, (resolve_vendors ids s).2)

/-! Concrete vendor records used by the scenario claims, counterexamples
and witnesses.  `vA5`, `vB5`, `vC5` are the spec's scenario vendors A, B, C. -/

/-- Scenario vendor A: `priceRating=6.5, deliveryTime=3.5, reviews=[]`. -/
def vA5 : Vendor := ⟨"a", "Acme", 6.5, 3.5, []⟩

/-- Scenario vendor B: `priceRating=4.2, deliveryTime=5.0, reviews=[]`. -/
def vB5 : Vendor := ⟨"b", "Mega", 4.2, 5, []⟩

/-- Scenario vendor C: `priceRating=6.5, deliveryTime=3.5`, two reviews of rating 5. -/
def vC5 : Vendor := ⟨"c", "Crest", 6.5, 3.5, [⟨some 5⟩, ⟨some 5⟩]⟩

/-- A vendor whose single review lacks a `rating` key: the computed
average is 0 although the review list is non-empty. -/
def vNoRating : Vendor := ⟨"z", "Zero", 6.5, 3.5, [⟨none⟩]⟩

/-- Same price and delivery as `vNoRating`, but with a second review of
rating 1: the computed average is 1/2. -/
def vHalf : Vendor := ⟨"h", "Half", 6.5, 3.5, [⟨none⟩, ⟨some 1⟩]⟩

/-- A vendor with one review of rating 2.5 (average exactly 2.5). -/
def v25 : Vendor := ⟨"r", "Rev25", 5, 5, [⟨some (5/2)⟩]⟩

/-- Like `v25` but with one review of rating 3. -/
def v30 : Vendor := ⟨"s", "Rev30", 5, 5, [⟨some 3⟩]⟩

/-- Tie vendor 1: raw score exactly 6.4, rounded score 6.4. -/
def vTie1 : Vendor := ⟨"t1", "First", 6.5, 0, []⟩

/-- Tie vendor 2: raw score 6.44, rounded score also 6.4. -/
def vTie2 : Vendor := ⟨"t2", "Second", 6.4, 0, []⟩

/-- `vA5` with a worse (higher) price rating. -/
def vP : Vendor := ⟨"p", "Pricey", 7, 3.5, []⟩

/-- `vA5` with a worse (longer) delivery time. -/
def vD : Vendor := ⟨"d", "Slow", 6.5, 4, []⟩

/-- A 40-day-delivery vendor. -/
def v40 : Vendor := ⟨"f", "Forty", 5, 40, []⟩

/-- Like `v40` but with a 90-day delivery time. -/
def v90 : Vendor := ⟨"g", "Ninety", 5, 90, []⟩

/-- A vendor with one review of rating 3. -/
def vOne3 : Vendor := ⟨"x", "NCount", 5, 5, [⟨some 3⟩]⟩

/-- Like `vOne3` but with two reviews of rating 3: same average, different
review count. -/
def vTwo3 : Vendor := ⟨"x", "NCount", 5, 5, [⟨some 3⟩, ⟨some 3⟩]⟩

/-! ### Properties of the rounding function -/

/-- `pyRound` differs from its argument by at most one half. -/
theorem pyRound_bounds (x : ℚ) :
    x - 1/2 ≤ (pyRound x : ℚ) ∧ (pyRound x : ℚ) ≤ x + 1/2 := by
  unfold pyRound
  split
  case isTrue h =>
    have hx : x - (⌊x⌋ : ℚ) = 1/2 := by rw [Int.self_sub_floor]; exact h
    split <;> push_cast <;> constructor <;> linarith
  case isFalse h =>
    have hb := abs_sub_round x
    rw [abs_le] at hb
    constructor <;> linarith [hb.1, hb.2]

/-- `pyRound` is monotone. -/
theorem pyRound_mono {x y : ℚ} (h : x ≤ y) : pyRound x ≤ pyRound y := by
  rcases eq_or_lt_of_le h with rfl | hlt
  · exact le_refl _
  · by_contra hc
    push_neg at hc
    have hstep : (pyRound y : ℚ) + 1 ≤ (pyRound x : ℚ) := by
      exact_mod_cast Int.add_one_le_iff.mpr hc
    have h1 := (pyRound_bounds x).2
    have h2 := (pyRound_bounds y).1
    linarith

/-- `round1` is monotone. -/
theorem round1_mono {x y : ℚ} (h : x ≤ y) : round1 x ≤ round1 y := by
  unfold round1
  have hm : pyRound (10 * x) ≤ pyRound (10 * y) := pyRound_mono (by linarith)
  have hq : (pyRound (10 * x) : ℚ) ≤ (pyRound (10 * y) : ℚ) := by exact_mod_cast hm
  linarith

/-- Values of `pyRound` away from midpoints: if `x` is strictly within one
half of the integer `k`, it rounds to `k`. -/
theorem pyRound_eq_of {x : ℚ} {k : ℤ} (h1 : (k : ℚ) - 1/2 < x) (h2 : x < (k : ℚ) + 1/2) :
    pyRound x = k := by
  unfold pyRound
  split
  case isTrue h =>
    exfalso
    have hx : x - (⌊x⌋ : ℚ) = 1/2 := by rw [Int.self_sub_floor]; exact h
    have hl : k - 1 < ⌊x⌋ := by
      have : (k : ℚ) - 1 < (⌊x⌋ : ℚ) := by linarith
      exact_mod_cast this
    have hr : ⌊x⌋ < k := by
      have : (⌊x⌋ : ℚ) < (k : ℚ) := by linarith
      exact_mod_cast this
    omega
  case isFalse h =>
    rw [round_eq, Int.floor_eq_iff]
    constructor
    · linarith
    · linarith

/-- Values of `round1` away from midpoints. -/
theorem round1_eq_of {x : ℚ} {k : ℤ} (h1 : (k : ℚ) - 1/2 < 10 * x) (h2 : 10 * x < (k : ℚ) + 1/2) :
    round1 x = (k : ℚ) / 10 := by
  unfold round1
  rw [pyRound_eq_of h1 h2]

/-! ### Concrete score evaluations -/

theorem raw_vA5 : overall_score_raw vA5 = 89/15 := by
  norm_num [overall_score_raw, price_factor, delivery_factor, review_factor,
    avg_review, ratingSum, getRating, vA5, min_def]

theorem score_vA5 : overall_score vA5 = 5.9 := by
  unfold overall_score
  rw [raw_vA5, round1_eq_of (k := 59) (by norm_num) (by norm_num)]
  norm_num

theorem raw_vB5 : overall_score_raw vB5 = 499/75 := by
  norm_num [overall_score_raw, price_factor, delivery_factor, review_factor,
    avg_review, ratingSum, getRating, vB5, min_def]

theorem score_vB5 : overall_score vB5 = 6.7 := by
  unfold overall_score
  rw [raw_vB5, round1_eq_of (k := 67) (by norm_num) (by norm_num)]
  norm_num

theorem raw_vC5 : overall_score_raw vC5 = 104/15 := by
  norm_num [overall_score_raw, price_factor, delivery_factor, review_factor,
    avg_review, ratingSum, getRating, vC5, min_def]

theorem score_vC5 : overall_score vC5 = 6.9 := by
  unfold overall_score
  rw [raw_vC5, round1_eq_of (k := 69) (by norm_num) (by norm_num)]
  norm_num

theorem raw_vNoRating : overall_score_raw vNoRating = 89/15 := by
  norm_num [overall_score_raw, price_factor, delivery_factor, review_factor,
    avg_review, ratingSum, getRating, vNoRating, min_def]

theorem score_vNoRating : overall_score vNoRating = 5.9 := by
  unfold overall_score
  rw [raw_vNoRating, round1_eq_of (k := 59) (by norm_num) (by norm_num)]
  norm_num

theorem raw_vHalf : overall_score_raw vHalf = 77/15 := by
  norm_num [overall_score_raw, price_factor, delivery_factor, review_factor,
    avg_review, ratingSum, getRating, vHalf, min_def]

theorem score_vHalf : overall_score vHalf = 5.1 := by
  unfold overall_score
  rw [raw_vHalf, round1_eq_of (k := 51) (by norm_num) (by norm_num)]
  norm_num

theorem raw_vTie1 : overall_score_raw vTie1 = 32/5 := by
  norm_num [overall_score_raw, price_factor, delivery_factor, review_factor,
    avg_review, ratingSum, getRating, vTie1, min_def]

theorem score_vTie1 : overall_score vTie1 = 6.4 := by
  unfold overall_score
  rw [raw_vTie1, round1_eq_of (k := 64) (by norm_num) (by norm_num)]
  norm_num

theorem raw_vTie2 : overall_score_raw vTie2 = 161/25 := by
  norm_num [overall_score_raw, price_factor, delivery_factor, review_factor,
    avg_review, ratingSum, getRating, vTie2, min_def]

theorem score_vTie2 : overall_score vTie2 = 6.4 := by
  unfold overall_score
  rw [raw_vTie2, round1_eq_of (k := 64) (by norm_num) (by norm_num)]
  norm_num

theorem key_lt_vA5_vB5 : key_score vA5 < key_score vB5 := by
  norm_num [key_score, key_review_factor, ratingSum, getRating, vA5, vB5, min_def]

theorem key_lt_vTie1_vTie2 : key_score vTie1 < key_score vTie2 := by
  norm_num [key_score, key_review_factor, ratingSum, getRating, vTie1, vTie2, min_def]

theorem avg_vNoRating : avg_review vNoRating = 0 := by
  norm_num [avg_review, ratingSum, getRating, vNoRating]

theorem avg_vHalf : avg_review vHalf = 1/2 := by
  norm_num [avg_review, ratingSum, getRating, vHalf]

theorem avg_v25 : avg_review v25 = 5/2 := by
  norm_num [avg_review, ratingSum, getRating, v25]

theorem avg_v30 : avg_review v30 = 3 := by
  norm_num [avg_review, ratingSum, getRating, v30]

/-! ### Normal forms and congruence of the scoring factors -/

theorem price_factor_eq (v : Vendor) : price_factor v = v.price_rating / 25 := by
  unfold price_factor
  rw [show (0.4 : ℚ) = 2/5 by norm_num]
  ring

theorem delivery_factor_eq (v : Vendor) : delivery_factor v = min v.delivery_time 30 / 75 := by
  unfold delivery_factor
  rw [show (0.4 : ℚ) = 2/5 by norm_num]
  ring

theorem review_factor_eq (v : Vendor) :
    review_factor v = if 0 < avg_review v then (5 - avg_review v) / 25 else 1/10 := by
  unfold review_factor
  split
  · rw [show (0.2 : ℚ) = 1/5 by norm_num]
    ring
  · norm_num

/-- The average review is a function of the review list alone. -/
theorem avg_review_congr {v w : Vendor} (h : v.reviews = w.reviews) :
    avg_review v = avg_review w := by
  unfold avg_review
  rw [h]

/-- The review factor is a function of the review list alone. -/
theorem review_factor_congr {v w : Vendor} (h : v.reviews = w.reviews) :
    review_factor v = review_factor w := by
  unfold review_factor
  rw [avg_review_congr h]

/-! ### Bounds on the average review -/

theorem ratingSum_nonneg {rs : List Review} (h : ∀ r ∈ rs, 0 ≤ getRating r) :
    0 ≤ ratingSum rs := by
  unfold ratingSum
  refine List.sum_nonneg ?_
  intro x hx
  obtain ⟨r, hr, rfl⟩ := List.mem_map.mp hx
  exact h r hr

theorem ratingSum_le {rs : List Review} (h : ∀ r ∈ rs, getRating r ≤ 5) :
    ratingSum rs ≤ (rs.length : ℚ) * 5 := by
  unfold ratingSum
  have := List.sum_le_card_nsmul (rs.map getRating) 5 (by
    intro x hx
    obtain ⟨r, hr, rfl⟩ := List.mem_map.mp hx
    exact h r hr)
  simpa [nsmul_eq_mul] using this

theorem avg_review_nonneg {v : Vendor} (h : ∀ r ∈ v.reviews, 0 ≤ getRating r) :
    0 ≤ avg_review v := by
  unfold avg_review
  split
  · exact le_refl 0
  · exact div_nonneg (ratingSum_nonneg h) (by positivity)

theorem avg_review_le_five {v : Vendor} (h : ∀ r ∈ v.reviews, getRating r ≤ 5) :
    avg_review v ≤ 5 := by
  unfold avg_review
  split
  case isTrue => norm_num
  case isFalse hne =>
    have hpos : 0 < (v.reviews.length : ℚ) := by
      have : v.reviews ≠ [] := by simpa using hne
      have := List.length_pos.mpr this
      exact_mod_cast this
    rw [div_le_iff₀ hpos]
    calc ratingSum v.reviews ≤ (v.reviews.length : ℚ) * 5 := ratingSum_le h
    _ = 5 * (v.reviews.length : ℚ) := by ring

/-! ### The `max` scan: maximality and first-attainment -/

theorem pickBest_key_le (k : Vendor → ℚ) :
    ∀ (l : List Vendor) (b : Vendor),
      k b ≤ k (pickBest k b l) ∧ ∀ u ∈ l, k u ≤ k (pickBest k b l) := by
  intro l
  induction l with
  | nil =>
    intro b
    exact ⟨le_refl _, by simp⟩
  | cons v rest ih =>
    intro b
    have hbody : pickBest k b (v :: rest) = pickBest k (if k b < k v then v else b) rest := rfl
    rcases ih (if k b < k v then v else b) with ⟨hb', hall⟩
    have hkb : k b ≤ k (if k b < k v then v else b) := by
      split
      case isTrue h => exact le_of_lt h
      case isFalse h => exact le_refl _
    have hkv : k v ≤ k (if k b < k v then v else b) := by
      split
      case isTrue h => exact le_refl _
      case isFalse h => exact le_of_not_lt h
    rw [hbody]
    refine ⟨le_trans hkb hb', ?_⟩
    intro u hu
    rcases List.mem_cons.mp hu with rfl | hu
    · exact le_trans hkv hb'
    · exact hall u hu

theorem pickBest_first (k : Vendor → ℚ) :
    ∀ (l : List Vendor) (b : Vendor),
      ∃ lo hi, b :: l = lo ++ pickBest k b l :: hi ∧
        ∀ u ∈ lo, k u < k (pickBest k b l) := by
  intro l
  induction l with
  | nil =>
    intro b
    exact ⟨[], [], rfl, by simp⟩
  | cons v rest ih =>
    intro b
    by_cases hbv : k b < k v
    · have hbody : pickBest k b (v :: rest) = pickBest k v rest := by
        simp [pickBest, hbv]
      obtain ⟨lo, hi, hsplit, hlt⟩ := ih v
      refine ⟨b :: lo, hi, ?_, ?_⟩
      · rw [hbody]
        simpa using congrArg (List.cons b) hsplit
      · intro u hu
        rw [hbody]
        rcases List.mem_cons.mp hu with rfl | hu
        · exact lt_of_lt_of_le hbv (pickBest_key_le k rest v).1
        · exact hlt u hu
    · have hbody : pickBest k b (v :: rest) = pickBest k b rest := by
        simp [pickBest, hbv]
      obtain ⟨lo, hi, hsplit, hlt⟩ := ih b
      cases lo with
      | nil =>
        simp only [List.nil_append] at hsplit
        have hb : b = pickBest k b rest := (List.cons.injEq _ _ _ _).mp hsplit |>.1
        have hrest : rest = hi := (List.cons.injEq _ _ _ _).mp hsplit |>.2
        refine ⟨[], v :: hi, ?_, by simp⟩
        rw [hbody, List.nil_append, ← hb, hrest]
      | cons p lo2 =>
        have hp : p = b ∧ rest = lo2 ++ pickBest k b rest :: hi := by
          have := (List.cons.injEq _ _ _ _).mp (by simpa using hsplit)
          exact ⟨this.1.symm, this.2⟩
        have hkb : k b < k (pickBest k b rest) := by
          have := hlt p (by simp)
          rwa [hp.1] at this
        refine ⟨b :: v :: lo2, hi, ?_, ?_⟩
        · rw [hbody]
          have hassoc : (b :: v :: lo2) ++ pickBest k b rest :: hi
              = b :: v :: (lo2 ++ pickBest k b rest :: hi) := by simp
          rw [hassoc, ← hp.2]
        · intro u hu
          rw [hbody]
          rcases List.mem_cons.mp hu with rfl | hu
          · exact hkb
          rcases List.mem_cons.mp hu with rfl | hu
          · exact lt_of_le_of_lt (le_of_not_lt hbv) hkb
          · exact hlt u (by simp [hu])

/-! ### State passing through the vendor store -/

theorem resolve_vendors_state : ∀ (ids : List String) (s : List Vendor),
    (resolve_vendors ids s).2 = s := by
  intro ids
  induction ids with
  | nil => intro s; rfl
  | cons vid rest ih =>
    intro s
    unfold resolve_vendors get_vendor_st
    cases hfind : s.find? (fun v => v.id == vid) with
    | none => simpa using ih s
    | some v => simpa using ih s

theorem resolve_vendors_all_none : ∀ (ids : List String) (s : List Vendor),
    (∀ vid ∈ ids, (get_vendor_st vid s).1 = none) → (resolve_vendors ids s).1 = [] := by
  intro ids
  induction ids with
  | nil => intro s _; rfl
  | cons vid rest ih =>
    intro s h
    have hhead : s.find? (fun v => v.id == vid) = none := by
      have := h vid (by simp)
      simpa [get_vendor_st] using this
    unfold resolve_vendors get_vendor_st
    rw [hhead]
    exact ih s (fun w hw => h w (by simp [hw]))

/-! ### Claim theorems -/

/-- C1, counterexample: the claim says the review factor is
`(5 - averageRating) / 5 * 0.2` whenever the review list is non-empty, and
that the empty-list penalty 0.1 is strictly larger than the factor at
average 2.5.  Both fail: `vNoRating` has one review with a missing rating,
so its average is 0 and the code takes the `else 0.1` branch instead of
the claimed value 0.2; and the factor at average 2.5 equals 0.1 exactly,
so 0.1 is not strictly worse than it, nor strictly better than the factor
of a non-empty list averaging 0. -/
theorem c1_counterexample :
    vNoRating.reviews ≠ [] ∧
    review_factor vNoRating = 0.1 ∧
    (5 - avg_review vNoRating) / 5 * 0.2 = 0.2 ∧
    review_factor vNoRating ≠ (5 - avg_review vNoRating) / 5 * 0.2 ∧
    v25.reviews ≠ [] ∧
    avg_review v25 = 5/2 ∧
    ¬ review_factor v25 < 0.1 ∧
    ¬ 0.1 < review_factor vNoRating := by
  refine ⟨by simp [vNoRating], ?_, ?_, ?_, by simp [v25], avg_v25, ?_, ?_⟩
  · norm_num [review_factor, avg_vNoRating]
  · rw [avg_vNoRating]; norm_num
  · norm_num [review_factor, avg_vNoRating]
  · norm_num [review_factor, avg_v25]
  · norm_num [review_factor, avg_vNoRating]

/-- C1 (amended): the review factor used by `score` is
`(5 - averageRating) / 5 * 0.2` when the computed average rating is
positive, and exactly 0.1 when the computed average is not positive
(empty review list, or every rating missing/zero); the 0.1 penalty equals
the factor at average rating 2.5 and equals the factor of a non-empty
review list averaging 0. -/
theorem c1_amended (v : Vendor) :
    (0 < avg_review v → review_factor v = (5 - avg_review v) / 5 * 0.2) ∧
    (avg_review v ≤ 0 → review_factor v = 0.1) := by
  constructor
  · intro h
    unfold review_factor
    rw [if_pos h]
  · intro h
    unfold review_factor
    rw [if_neg (by linarith)]

/-- Witness for `c1_amended`: both branches at concrete vendors. -/
theorem c1_amended_witness :
    review_factor v25 = (5 - avg_review v25) / 5 * 0.2 ∧ review_factor vA5 = 0.1 :=
  ⟨(c1_amended v25).1 (by rw [avg_v25]; norm_num),
   (c1_amended vA5).2 (by simp [avg_review, vA5])⟩

/-- C3, counterexample: the table-row formula and the inline
maximum-selection key do not yield the same value before rounding.  On
vendor A of the spec's scenarios the table computes `10 - (sum * 10)` but
the key computes `10 - sum` (the inline copy forgot the `* 10`), and on a
vendor whose single review lacks a rating the two copies even use
different review factors (0.1 versus 0.2). -/
theorem c3_counterexample :
    overall_score_raw vA5 ≠ key_score vA5 ∧
    review_factor vNoRating = 0.1 ∧
    key_review_factor vNoRating = 0.2 ∧
    overall_score_raw vNoRating ≠ key_score vNoRating := by
  refine ⟨?_, ?_, ?_, ?_⟩
  · rw [raw_vA5]
    norm_num [key_score, key_review_factor, vA5, ratingSum, getRating, min_def]
  · norm_num [review_factor, avg_vNoRating]
  · norm_num [key_review_factor, vNoRating, ratingSum, getRating]
  · rw [raw_vNoRating]
    norm_num [key_score, key_review_factor, vNoRating, ratingSum, getRating, min_def]

/-- C3 (amended): for every vendor whose review list is empty or whose
computed average rating is positive, the two copies use the same review
factor and are affinely related — the table's pre-rounding score equals
`10 * key - 90` — so they order vendors identically; they are not equal as
values, and on non-empty review lists with non-positive average the review
factors differ (0.1 in the table, 0.2 in the key). -/
theorem c3_amended (v : Vendor) (h : v.reviews = [] ∨ 0 < avg_review v) :
    review_factor v = key_review_factor v ∧
    overall_score_raw v = 10 * key_score v - 90 := by
  have hrf : review_factor v = key_review_factor v := by
    rcases h with h | h
    · have havg : avg_review v = 0 := by simp [avg_review, h]
      simp [review_factor, key_review_factor, h, havg]
    · have hne : v.reviews.isEmpty = false := by
        cases hemp : v.reviews.isEmpty
        · rfl
        · exfalso
          have havg : avg_review v = 0 := by simp [avg_review, hemp]
          rw [havg] at h
          exact lt_irrefl 0 h
      have havg : avg_review v = ratingSum v.reviews / (v.reviews.length : ℚ) := by
        simp [avg_review, hne]
      rw [review_factor, if_pos h, key_review_factor, if_neg (by simp [hne]), havg]
  refine ⟨hrf, ?_⟩
  unfold overall_score_raw key_score price_factor delivery_factor
  rw [hrf]
  ring

/-- Witness for `c3_amended`: the affine relation at scenario vendor A. -/
theorem c3_amended_witness :
    review_factor vA5 = key_review_factor vA5 ∧
    overall_score_raw vA5 = 10 * key_score vA5 - 90 :=
  c3_amended vA5 (Or.inl rfl)

/-- C5: the spec's concrete scenarios.  Vendor A scores 5.9, vendor B
scores 6.7 and `compare([A, B])` recommends B, vendor C scores 6.9,
strictly higher than vendor A. -/
theorem c5_scenarios :
    overall_score vA5 = 5.9 ∧
    overall_score vB5 = 6.7 ∧
    compare_engine [vA5, vB5] = .ok (compare_rows [vA5, vB5], vB5) ∧
    overall_score vC5 = 6.9 ∧
    overall_score vA5 < overall_score vC5 := by
  have hbest : pickBest key_score vA5 [vB5] = vB5 := by
    simp only [pickBest]
    rw [if_pos key_lt_vA5_vB5]
  refine ⟨score_vA5, score_vB5, ?_, score_vC5, ?_⟩
  · simp only [compare_engine]
    rw [hbest]
  · rw [score_vA5, score_vC5]
    norm_num

/-- C7: `compare` invoked with zero resolvable vendors takes the
insufficient-input error path instead of producing a comparison result
(the source prints `"Error: No valid vendors to compare."` and returns
with no result; the spec names this outcome `InsufficientInputError`). -/
theorem c7_empty_input :
    compare_engine [] = .error .insufficientInput ∧
    ∀ (ids : List String) (s : List Vendor),
      (∀ vid ∈ ids, (get_vendor_st vid s).1 = none) →
      (compare_vendors_op ids s).1 = .error .insufficientInput := by
  constructor
  · rfl
  · intro ids s h
    have hres := resolve_vendors_all_none ids s h
    show compare_engine (resolve_vendors ids s).1 = _
    rw [hres]
    rfl

/-- Witness for `c7_empty_input`: one unresolvable id over an empty store. -/
theorem c7_empty_input_witness :
    (compare_vendors_op ["missing"] []).1 = .error .insufficientInput :=
  c7_empty_input.2 ["missing"] [] (by intro vid _; rfl)

/-- C8: delivery times at or beyond the 30-day clamp are indistinguishable:
two vendors with delivery times both ≥ 30 have identical delivery factors,
and if their other fields agree they receive equal overall scores. -/
theorem c8_delivery_clamp (v w : Vendor) (hv : 30 ≤ v.delivery_time)
    (hw : 30 ≤ w.delivery_time) (hp : v.price_rating = w.price_rating)
    (hr : v.reviews = w.reviews) :
    delivery_factor v = delivery_factor w ∧ overall_score v = overall_score w := by
  have hdf : delivery_factor v = delivery_factor w := by
    unfold delivery_factor
    rw [min_eq_right hv, min_eq_right hw]
  have hpf : price_factor v = price_factor w := by
    unfold price_factor
    rw [hp]
  refine ⟨hdf, ?_⟩
  unfold overall_score overall_score_raw
  rw [hdf, hpf, review_factor_congr hr]

/-- Witness for `c8_delivery_clamp`: a 40-day and a 90-day vendor. -/
theorem c8_delivery_clamp_witness :
    delivery_factor v40 = delivery_factor v90 ∧ overall_score v40 = overall_score v90 :=
  c8_delivery_clamp v40 v90 (by norm_num [v40]) (by norm_num [v90]) rfl rfl

/-- C2, counterexample: the recommendation is not the first vendor whose
rounded 1-decimal score attains the maximum.  `vTie1` and `vTie2` both
have rounded score 6.4 (raw 6.4 and 6.44), so the first vendor attaining
the maximum rounded score is `vTie1`, yet the engine recommends `vTie2`
because the `max` key uses unrounded values. -/
theorem c2_counterexample :
    overall_score vTie1 = overall_score vTie2 ∧
    vTie1 ≠ vTie2 ∧
    compare_engine [vTie1, vTie2] = .ok (compare_rows [vTie1, vTie2], vTie2) := by
  refine ⟨by rw [score_vTie1, score_vTie2], ?_, ?_⟩
  · intro h
    have hpr : vTie1.price_rating = vTie2.price_rating := by rw [h]
    norm_num [vTie1, vTie2] at hpr
  · have hbest : pickBest key_score vTie1 [vTie2] = vTie2 := by
      simp only [pickBest]
      rw [if_pos key_lt_vTie1_vTie2]
    simp only [compare_engine]
    rw [hbest]

/-- C2 (amended): for every non-empty input the engine succeeds and
recommends the first vendor in input order attaining the maximum of the
unrounded selection key `key_score` (the inline `max` key, whose review
factor is 0.1 exactly when the review list is empty): every input vendor
has key at most the recommended one's, and every vendor strictly before it
in input order has a strictly smaller key.  Ties in the rounded
1-decimal score are broken by the unrounded key, not by input order. -/
theorem c2_amended (v : Vendor) (rest : List Vendor) :
    ∃ lo hi,
      compare_engine (v :: rest) = .ok (compare_rows (v :: rest), pickBest key_score v rest) ∧
      v :: rest = lo ++ pickBest key_score v rest :: hi ∧
      (∀ u ∈ v :: rest, key_score u ≤ key_score (pickBest key_score v rest)) ∧
      (∀ u ∈ lo, key_score u < key_score (pickBest key_score v rest)) := by
  obtain ⟨lo, hi, hsplit, hlt⟩ := pickBest_first key_score rest v
  refine ⟨lo, hi, rfl, hsplit, ?_, hlt⟩
  intro u hu
  rcases List.mem_cons.mp hu with rfl | hu
  · exact (pickBest_key_le key_score rest u).1
  · exact (pickBest_key_le key_score rest v).2 u hu

/-- C4, counterexample: the score is not monotone in the average review
rating.  `vNoRating` (average 0, from a review with a missing rating) and
`vHalf` (average 1/2) agree on price and delivery, yet the higher-averaging
`vHalf` scores 5.1 while `vNoRating` scores 5.9, because an average of 0
falls back to the 0.1 penalty while an average of 1/2 yields factor 0.18. -/
theorem c4_counterexample :
    vNoRating.price_rating = vHalf.price_rating ∧
    vNoRating.delivery_time = vHalf.delivery_time ∧
    avg_review vNoRating < avg_review vHalf ∧
    overall_score vHalf < overall_score vNoRating := by
  refine ⟨rfl, rfl, ?_, ?_⟩
  · rw [avg_vNoRating, avg_vHalf]
    norm_num
  · rw [score_vHalf, score_vNoRating]
    norm_num

/-- C4 (amended): holding the other fields fixed, the score is monotone
non-increasing in `priceRating` and in `deliveryTime`; it is monotone
non-decreasing in the average review rating on the region where the
average is positive (in particular whenever every rating lies in the
declared 1-5 domain).  Across the boundary to a non-positive average the
0.1 fallback of line 271 breaks monotonicity. -/
theorem c4_amended (v w : Vendor) :
    (v.delivery_time = w.delivery_time → v.reviews = w.reviews →
      v.price_rating ≤ w.price_rating → overall_score w ≤ overall_score v) ∧
    (v.price_rating = w.price_rating → v.reviews = w.reviews →
      v.delivery_time ≤ w.delivery_time → overall_score w ≤ overall_score v) ∧
    (v.price_rating = w.price_rating → v.delivery_time = w.delivery_time →
      0 < avg_review v → avg_review v ≤ avg_review w →
      overall_score v ≤ overall_score w) := by
  refine ⟨?_, ?_, ?_⟩
  · intro hd hr hp
    have hdf : delivery_factor v = delivery_factor w := by
      unfold delivery_factor
      rw [hd]
    have hrf := review_factor_congr hr
    have hpf : price_factor v ≤ price_factor w := by
      rw [price_factor_eq, price_factor_eq]
      linarith
    unfold overall_score
    apply round1_mono
    unfold overall_score_raw
    linarith
  · intro hp hr hd
    have hpf : price_factor v = price_factor w := by
      unfold price_factor
      rw [hp]
    have hrf := review_factor_congr hr
    have hdf : delivery_factor v ≤ delivery_factor w := by
      rw [delivery_factor_eq, delivery_factor_eq]
      have := min_le_min hd (le_refl (30:ℚ))
      linarith
    unfold overall_score
    apply round1_mono
    unfold overall_score_raw
    linarith
  · intro hp hd h0 hle
    have h0w : 0 < avg_review w := lt_of_lt_of_le h0 hle
    have hrf : review_factor w ≤ review_factor v := by
      rw [review_factor_eq, review_factor_eq, if_pos h0, if_pos h0w]
      linarith
    have hpf : price_factor v = price_factor w := by
      unfold price_factor
      rw [hp]
    have hdf : delivery_factor v = delivery_factor w := by
      unfold delivery_factor
      rw [hd]
    unfold overall_score
    apply round1_mono
    unfold overall_score_raw
    linarith

/-- Witness for `c4_amended`: one concrete instance of each of the three
monotonicity statements. -/
theorem c4_amended_witness :
    overall_score vP ≤ overall_score vA5 ∧
    overall_score vD ≤ overall_score vA5 ∧
    overall_score v25 ≤ overall_score v30 :=
  ⟨(c4_amended vA5 vP).1 rfl rfl (by norm_num [vA5, vP]),
   (c4_amended vA5 vD).2.1 rfl rfl (by norm_num [vA5, vD]),
   (c4_amended v25 v30).2.2 rfl rfl (by rw [avg_v25]; norm_num)
     (by rw [avg_v25, avg_v30]; norm_num)⟩

/-- C6: for every vendor with `priceRating` in `[1, 10]`, `deliveryTime`
at least 0, and every review contributing a rating in `[0, 5]` (the
declared `[1, 5]` domain, plus 0 for a missing rating), the score lies in
`[0, 10]` and is an integer multiple of one tenth. -/
theorem c6_score_range (v : Vendor) (hp1 : 1 ≤ v.price_rating)
    (hp2 : v.price_rating ≤ 10) (hd : 0 ≤ v.delivery_time)
    (hr : ∀ r ∈ v.reviews, 0 ≤ getRating r ∧ getRating r ≤ 5) :
    0 ≤ overall_score v ∧ overall_score v ≤ 10 ∧
    ∃ m : ℤ, overall_score v = (m : ℚ) / 10 := by
  have havg0 : 0 ≤ avg_review v := avg_review_nonneg (fun r h => (hr r h).1)
  have havg5 : avg_review v ≤ 5 := avg_review_le_five (fun r h => (hr r h).2)
  have hpf1 : 1/25 ≤ price_factor v := by
    rw [price_factor_eq]
    linarith
  have hpf2 : price_factor v ≤ 2/5 := by
    rw [price_factor_eq]
    linarith
  have hdf1 : 0 ≤ delivery_factor v := by
    rw [delivery_factor_eq]
    have := le_min hd (by norm_num : (0:ℚ) ≤ 30)
    linarith
  have hdf2 : delivery_factor v ≤ 2/5 := by
    rw [delivery_factor_eq]
    have := min_le_right v.delivery_time 30
    linarith
  have hrf1 : 0 ≤ review_factor v := by
    rw [review_factor_eq]
    split
    · linarith
    · norm_num
  have hrf2 : review_factor v ≤ 1/5 := by
    rw [review_factor_eq]
    split
    · linarith
    · norm_num
  have hraw1 : 0 ≤ overall_score_raw v := by
    unfold overall_score_raw
    linarith
  have hraw2 : overall_score_raw v ≤ 48/5 := by
    unfold overall_score_raw
    linarith
  have h0 : round1 0 = 0 := by
    rw [round1_eq_of (k := 0) (by norm_num) (by norm_num)]
    norm_num
  have h96 : round1 (48/5) = 48/5 := by
    rw [round1_eq_of (k := 96) (by norm_num) (by norm_num)]
    norm_num
  refine ⟨?_, ?_, ?_⟩
  · unfold overall_score
    have hm := round1_mono hraw1
    rw [h0] at hm
    exact hm
  · unfold overall_score
    have hm := round1_mono hraw2
    rw [h96] at hm
    linarith
  · exact ⟨pyRound (10 * overall_score_raw v), rfl⟩

/-- Witness for `c6_score_range`: scenario vendor A. -/
theorem c6_score_range_witness :
    0 ≤ overall_score vA5 ∧ overall_score vA5 ≤ 10 ∧
    ∃ m : ℤ, overall_score vA5 = (m : ℚ) / 10 :=
  c6_score_range vA5 (by norm_num [vA5]) (by norm_num [vA5]) (by norm_num [vA5])
    (by intro r h; simp [vA5] at h)

/-- C9, counterexample: a table row does not carry the review count.
`vOne3` (one rating-3 review) and `vTwo3` (two rating-3 reviews) produce
identical rows — same name, price, delivery, displayed average and score —
while their review counts differ. -/
theorem c9_counterexample :
    mkRow vOne3 = mkRow vTwo3 ∧ vOne3.reviews.length ≠ vTwo3.reviews.length := by
  constructor
  · norm_num [mkRow, vOne3, vTwo3, overall_score, overall_score_raw, price_factor,
      delivery_factor, review_factor, avg_review, ratingSum, getRating]
  · simp [vOne3, vTwo3]

/-- C9 (amended): for every non-empty input the engine produces exactly
one row per vendor, in input order: the row list has the input's length,
and the i-th row carries the i-th vendor's name, its rounded overall
score, and its average review rounded to one decimal place (or the
no-reviews marker when the review list is empty).  The review count is
not part of a row. -/
theorem c9_amended (v : Vendor) (rest : List Vendor) (i : ℕ)
    (hi : i < (v :: rest).length) :
    (compare_rows (v :: rest)).length = (v :: rest).length ∧
    compare_engine (v :: rest) = .ok (compare_rows (v :: rest), pickBest key_score v rest) ∧
    ∀ hj : i < (compare_rows (v :: rest)).length,
      ((compare_rows (v :: rest)).get ⟨i, hj⟩).name = ((v :: rest).get ⟨i, hi⟩).name ∧
      ((compare_rows (v :: rest)).get ⟨i, hj⟩).score
        = overall_score ((v :: rest).get ⟨i, hi⟩) ∧
      ((compare_rows (v :: rest)).get ⟨i, hj⟩).avg_display
        = (if ((v :: rest).get ⟨i, hi⟩).reviews.isEmpty then none
           else some (round1 (avg_review ((v :: rest).get ⟨i, hi⟩)))) := by
  refine ⟨by simp [compare_rows], rfl, ?_⟩
  intro hj
  have hgen : ∀ (l : List Vendor) (hj2 : i < (compare_rows l).length) (hi2 : i < l.length),
      (compare_rows l).get ⟨i, hj2⟩ = mkRow (l.get ⟨i, hi2⟩) := by
    intro l hj2 hi2
    simp [compare_rows]
  rw [hgen (v :: rest) hj hi]
  exact ⟨rfl, rfl, rfl⟩

/-- Witness for `c9_amended`: the first row of `compare([A, B])`. -/
theorem c9_amended_witness :
    (compare_rows [vA5, vB5]).length = [vA5, vB5].length ∧
    compare_engine [vA5, vB5] = .ok (compare_rows [vA5, vB5], pickBest key_score vA5 [vB5]) ∧
    ((compare_rows [vA5, vB5]).get ⟨0, by simp [compare_rows]⟩).score = overall_score vA5 := by
  have h := c9_amended vA5 [vB5] 0 (by norm_num)
  exact ⟨h.1, h.2.1, (h.2.2 (by simp [compare_rows])).2.1⟩

/-- C10: `compare_vendors` never mutates the vendor store: the store state
after the call equals the state before it, and every id lookup returns the
same record afterwards as before (the source only reads via `get_vendor`;
it contains no `save_data` call). -/
theorem c10_no_mutation (ids : List String) (s : List Vendor) :
    (compare_vendors_op ids s).2 = s ∧
    ∀ vid : String,
      (get_vendor_st vid (compare_vendors_op ids s).2).1 = (get_vendor_st vid s).1 := by
  have h : (compare_vendors_op ids s).2 = s := resolve_vendors_state ids s
  refine ⟨h, ?_⟩
  intro vid
  rw [h]

end Procurement
